import Mathlib

/-!
Verification development for the read-through cache coordinator of
godilite/qa-server (internal/service/dtos.go, package grpc): the
FindAndCache orchestrator, its TTL jitter, its singleflight coalescing
group, the miss-path fill fetchAndCacheInBackground and the detached
background refresh.  Go values are modelled shallowly: time.Duration is
Int (nanoseconds) with explicit int64 wraparound, errors are an
inductive type, context.Context is reduced to its cancellation bit, and
the goroutine/oracle boundaries (singleflight result, asynchronous Set
outcome) are explicit inputs.
-/

namespace QaServer

/-- Errors that flow through the coordinator.  `redisNil` is the
distinguished not-found sentinel `redis.Nil`; `transport` covers other
store errors; `computeErr` covers errors of the caller's fetch
function; `typeMismatch` is the error built at dtos.go:168; `ctxCanceled`
is `context.Canceled`. -/
inductive Err where
  | redisNil : Err
  | transport : Nat → Err
  | computeErr : Nat → Err
  | typeMismatch : String → Err
  | ctxCanceled : Err
deriving DecidableEq, Repr

/-- A context reduced to its cancellation state. -/
inductive Ctx where
  | live : Ctx
  | canceled : Ctx
deriving DecidableEq, Repr

/-- `time.Second` in nanoseconds (`time.Duration` is an int64 count of
nanoseconds). -/
def second : Int := 1000000000

/-- Two-complement wraparound of int64 arithmetic, as Go's `+` on
`time.Duration` behaves. -/
def wrap64 (x : Int) : Int := (x + 2 ^ 63) % 2 ^ 64 - 2 ^ 63

/-- dtos.go:47-53.  `addTTLJitter(ttl)` returns `ttl` unchanged when
`ttl <= 0`, else `ttl + (rand.Intn(30)-15) * time.Second`.  The random
draw `rand.Intn(30)` is modelled as the parameter `r : Fin 30`. -/
def addTTLJitter (r : Fin 30) (ttl : Int) : Int :=
  if ttl ≤ 0 then ttl else wrap64 (ttl + ((r : Nat) - 15 : Int) * second)

/-- `wrap64` is the identity on values already representable in int64. -/
theorem wrap64_eq_self (x : Int) (hlo : -(2 ^ 63) ≤ x) (hhi : x < 2 ^ 63) :
    wrap64 x = x := by
  unfold wrap64
  have h0 : (0 : Int) ≤ x + 2 ^ 63 := by linarith
  have h1 : x + 2 ^ 63 < 2 ^ 64 := by
    have : (2 : Int) ^ 64 = 2 ^ 63 + 2 ^ 63 := by norm_num
    linarith
  rw [Int.emod_eq_of_lt h0 h1]
  ring

/-- Result of the store probe `c.Get(ctx, key, &cached)` at dtos.go:144:
either the decoded value or an error. -/
inductive GetResult (T : Type) where
  | ok : T → GetResult T
  | err : Err → GetResult T
deriving DecidableEq, Repr

/-- `errors.Is(err, redis.Nil)` (dtos.go:151). -/
def isRedisNil : Err → Bool
  | .redisNil => true
  | _ => false

/-- Leveled log events emitted by the coordinator, tagged with the cache
key, mirroring the zap calls in dtos.go. -/
inductive LogEvent where
  | cacheHit : String → LogEvent
  | cacheMiss : String → LogEvent
  | cacheGetError : String → Err → LogEvent
  | fetchFailed : String → Err → LogEvent
  | setFailedOnMiss : String → Err → LogEvent
  | populatedOnMiss : String → LogEvent
  | refreshFailed : String → Err → LogEvent
  | refreshSetFailed : String → Err → LogEvent
  | refreshed : String → LogEvent
  | sharedResult : String → LogEvent
  | typeMismatchLog : String → LogEvent
deriving DecidableEq, Repr

/-- What one execution of `fetchAndCacheInBackground` produces for the
singleflight group: the `(value, err)` pair it returns, and whether it
spawned the asynchronous write-back goroutine (dtos.go:113-123). -/
structure MissFill (T : Type) where
  value : T
  err : Option Err
  setScheduled : Bool
deriving DecidableEq, Repr

/-- dtos.go:97-126.  Runs `fn(ctx)`; on error returns `(zero, err)` with
no store write; on success returns `(value, nil)` at once and spawns a
goroutine performing `c.Set`.  The outcome of that detached `Set` is the
oracle input `setErr`; it reaches only the log stream. -/
def fetchAndCacheInBackground {T : Type} (zero : T) (key : String) (ctx : Ctx)
    (fn : Ctx → Except Err T) (setErr : Option Err) : MissFill T × List LogEvent :=
  match fn ctx with
  | .error e => (⟨zero, some e, false⟩, [.fetchFailed key e])
  | .ok v =>
      (⟨v, none, true⟩,
        match setErr with
        | some e => [.setFailedOnMiss key e]
        | none => [.populatedOnMiss key])

/-- The body of the closure passed to `sf.Do(key, ...)` at
dtos.go:158-160.  The closure captures `ctx`, the context of the caller
whose `FindAndCache` call started this flight, and hands it straight to
`fetchAndCacheInBackground` (hence to `fn`). -/
def missFlight {T : Type} (zero : T) (key : String) (callerCtx : Ctx)
    (fn : Ctx → Except Err T) (setErr : Option Err) : MissFill T × List LogEvent :=
  fetchAndCacheInBackground zero key callerCtx fn setErr

/-- The context under which the background-refresh flight runs its fetch
(dtos.go:67): `context.WithTimeout(context.Background(), ...)`, detached
from every caller; it ignores the context of the caller whose hit
triggered it. -/
def refreshFetchCtx (callerCtx : Ctx) : Ctx := Ctx.live

/-- dtos.go:66: the background refresh enters the singleflight group
under `key + ":refresh"`. -/
def refreshKey (key : String) : String := key ++ ":refresh"

/-- State of the singleflight group: at most one in-flight call per key,
each holding the list of callers blocked in `Do` on it (the caller that
started the flight included). -/
def SFState : Type := List (String × List Nat)

/-- Look up the in-flight call registered for `k`. -/
def sfLookup : SFState → String → Option (List Nat)
  | [], _ => none
  | (k', ws) :: rest, k => if k' = k then some ws else sfLookup rest k

/-- Replace the waiter list of the in-flight call for `k`. -/
def sfUpdate : SFState → String → List Nat → SFState
  | [], _, _ => []
  | (k', ws') :: rest, k, ws =>
      if k' = k then (k, ws) :: rest else (k', ws') :: sfUpdate rest k ws

/-- Delete the in-flight call for `k` (singleflight's `delete(g.m, key)`
once the flight's function returns). -/
def sfRemove : SFState → String → SFState
  | [], _ => []
  | (k', ws') :: rest, k => if k' = k then rest else (k', ws') :: sfRemove rest k

/-- The check-and-register half of `singleflight.Group.Do`: if no call is
in flight for `k`, caller `i` registers one and becomes the caller that
invokes the function (second component `true`); otherwise `i` joins the
existing call's waiters and the function is not invoked again. -/
def sfEnter (s : SFState) (k : String) (i : Nat) : SFState × Bool :=
  match sfLookup s k with
  | none => ((k, [i]) :: s, true)
  | some ws => (sfUpdate s k (i :: ws), false)

/-- One result handed back by the group to one blocked caller. -/
structure Delivery (T : Type) where
  caller : Nat
  key : String
  value : T
  err : Option Err
deriving DecidableEq, Repr

/-- Observable history of a run of the group: its in-flight map, one
entry in `fnKeys` per invocation of a flight's function (the key it ran
under), and the results delivered to blocked callers. -/
structure GroupRun (T : Type) where
  state : SFState
  fnKeys : List String
  delivered : List (Delivery T)

/-- Interleaving events of concurrent `Do` calls: a caller entering the
group for a key, or the in-flight call for a key completing. -/
inductive SFEv where
  | enter : String → Nat → SFEv
  | complete : String → SFEv
deriving DecidableEq, Repr

/-- Small-step semantics of the group.  `fnRes k` is the `(value, err)`
pair produced by the single function invocation of the flight for
key `k`; on completion every waiter of that flight receives it. -/
def sfStep {T : Type} (fnRes : String → T × Option Err) (g : GroupRun T) :
    SFEv → GroupRun T
  | .enter k i =>
      let p := sfEnter g.state k i
      { g with
        state := p.1
        fnKeys := if p.2 then k :: g.fnKeys else g.fnKeys }
  | .complete k =>
      match sfLookup g.state k with
      | none => g
      | some ws =>
          { state := sfRemove g.state k
            fnKeys := g.fnKeys
            delivered := ws.map (fun i => ⟨i, k, (fnRes k).1, (fnRes k).2⟩) ++
              g.delivered }

/-- Run a whole event trace from a group state. -/
def sfRun {T : Type} (fnRes : String → T × Option Err) (evs : List SFEv)
    (g : GroupRun T) : GroupRun T :=
  evs.foldl (sfStep fnRes) g

/-- The group state with nothing in flight and an empty history. -/
def sfInit {T : Type} : GroupRun T := ⟨[], [], []⟩

/-- What `sf.Do` handed back to one particular caller of `FindAndCache`
(dtos.go:158): the published `any` value (of dynamic type `A`), the
error, singleflight's `shared` flag, and whether this caller was the one
that ran the function. -/
structure SFDoReturn (A : Type) where
  v : A
  err : Option Err
  shared : Bool
  led : Bool

/-- Caller-visible outcome of one `FindAndCache` call: the returned
`(value, err)` pair, whether `fn` ran synchronously inside this call,
whether a detached background refresh was spawned, the key passed to
`sf.Do` (if the miss path was taken), and the log events emitted. -/
structure CallResult (T : Type) where
  value : T
  err : Option Err
  fgFetched : Bool
  refreshScheduled : Bool
  sfEntered : Option String
  logs : List LogEvent

/-- dtos.go:129-176.  `getRes` is the outcome of the store probe; `sfDo`
is what the coalescing group handed back to this caller on the miss
path; `down` is the `v.(T)` type assertion on the group's `any` value;
`zero` is Go's zero value of `T`.  On a hit the cached value is returned
with a nil error and only a detached refresh is scheduled; `redis.Nil`
and any other probe error both fall through to `sf.Do(key, ...)`,
differing only in the log line; the group's error is returned with
`zero`; a failed type assertion yields the explicit mismatch error. -/
def FindAndCache {T A : Type} (zero : T) (down : A → Option T) (key : String)
    (getRes : GetResult T) (sfDo : SFDoReturn A) : CallResult T :=
  match getRes with
  | .ok cached =>
      { value := cached
        err := none
        fgFetched := false
        refreshScheduled := true
        sfEntered := none
        logs := [.cacheHit key] }
  | .err e =>
      let missLog := if isRedisNil e then LogEvent.cacheMiss key else
        LogEvent.cacheGetError key e
      match sfDo.err with
      | some e2 =>
          { value := zero
            err := some e2
            fgFetched := sfDo.led
            refreshScheduled := false
            sfEntered := some key
            logs := [missLog] }
      | none =>
          match down sfDo.v with
          | none =>
              { value := zero
                err := some (.typeMismatch key)
                fgFetched := sfDo.led
                refreshScheduled := false
                sfEntered := some key
                logs := [missLog, .typeMismatchLog key] }
          | some value =>
              { value := value
                err := none
                fgFetched := sfDo.led
                refreshScheduled := false
                sfEntered := some key
                logs := missLog ::
                  (if sfDo.shared then [.sharedResult key] else []) }

/-- The store, as the refresh goroutine sees it: redis `SET key value`
overwrites. -/
def Store (T : Type) : Type := List (String × T)

/-- Overwriting write (first match shadows on lookup). -/
def storeSet {T : Type} (s : Store T) (k : String) (v : T) : Store T :=
  (k, v) :: s

/-- The hit path followed by the detached refresh it scheduled
(dtos.go:146-149 and 63-94): the caller's pair is fixed first; the
refresh flight then fetches under a detached context and, only on fetch
success, overwrites the store entry (its `Set` failure is only logged;
its result is discarded by `_, _, _ = sf.Do`). -/
def runHitWithRefresh {T A : Type} (zero : T) (down : A → Option T)
    (key : String) (cached : T) (sfDo : SFDoReturn A) (store : Store T)
    (refreshFetch : Except Err T) (refreshSetErr : Option Err) :
    (T × Option Err) × Store T :=
  let r := FindAndCache zero down key (GetResult.ok cached) sfDo
  let store' :=
    if r.refreshScheduled then
      match refreshFetch, refreshSetErr with
      | .ok v, none => storeSet store key v
      | _, _ => store
    else store
  ((r.value, r.err), store')

/-- C2, counterexample.  The claim "the effective TTL ... is never
negative" fails: for the nominal TTL `d = 1s > 0` the draw `r = 0`
(jitter `-15s`) yields an effective TTL of `-14s < 0`.  Moreover at
`d = 2^63 - 1` (max `time.Duration`) the draw `r = 29` (jitter `+14s`)
wraps around int64 and lands below `d - 15s`, outside `[d - J, d + J]`. -/
theorem addTTLJitter_negative_counterexample :
    (0 < second ∧ addTTLJitter ⟨0, by norm_num⟩ second < 0) ∧
      addTTLJitter ⟨29, by norm_num⟩ (2 ^ 63 - 1) < (2 ^ 63 - 1) - 15 * second := by
  decide

/-- C2, amended.  For every nominal TTL `d > 0` such that `d + 14s` does
not overflow int64, the effective TTL `addTTLJitter r d` lies within
`[d - J, d + J]` for `J = 15` seconds; it is moreover nonnegative
whenever `d ≥ 15s` (for `0 < d < 15s` it can be negative, as the
counterexample shows). -/
theorem addTTLJitter_spec (r : Fin 30) (d : Int) (hd : 0 < d)
    (hov : d + 14 * second ≤ 2 ^ 63 - 1) :
    d - 15 * second ≤ addTTLJitter r d ∧ addTTLJitter r d ≤ d + 15 * second ∧
      (15 * second ≤ d → 0 ≤ addTTLJitter r d) := by
  have hrlo : (0 : Int) ≤ ((r : Nat) : Int) := Int.ofNat_nonneg _
  have hrhi : ((r : Nat) : Int) ≤ 29 := by
    have h := r.isLt
    exact_mod_cast Nat.le_of_lt_succ h
  have hsec : (0 : Int) < second := by norm_num [second]
  unfold addTTLJitter
  rw [if_neg (not_le.mpr hd)]
  have hjlo : -15 * second ≤ (((r : Nat) : Int) - 15) * second := by
    have h15 : (-15 : Int) ≤ ((r : Nat) : Int) - 15 := by linarith
    exact mul_le_mul_of_nonneg_right h15 (le_of_lt hsec)
  have hjhi : (((r : Nat) : Int) - 15) * second ≤ 14 * second := by
    have h14 : ((r : Nat) : Int) - 15 ≤ 14 := by linarith
    exact mul_le_mul_of_nonneg_right h14 (le_of_lt hsec)
  have hw : wrap64 (d + (((r : Nat) : Int) - 15) * second) =
      d + (((r : Nat) : Int) - 15) * second := by
    apply wrap64_eq_self
    · have : (-(2 ^ 63) : Int) ≤ 1 + -15 * second := by norm_num [second]
      linarith
    · have : d + 14 * second < 2 ^ 63 := by linarith
      linarith
  rw [hw]
  refine ⟨by linarith, by linarith, fun h15d => by linarith⟩

/-- C2, witness for the amended theorem at the spec's own example: a
5-minute nominal TTL with draw `r = 7` (jitter `-8s`). -/
theorem addTTLJitter_spec_witness :
    (0 : Int) < 300 * second ∧
      (300 * second - 15 * second ≤ addTTLJitter ⟨7, by norm_num⟩ (300 * second) ∧
        addTTLJitter ⟨7, by norm_num⟩ (300 * second) ≤ 300 * second + 15 * second ∧
        (15 * second ≤ 300 * second →
          0 ≤ addTTLJitter ⟨7, by norm_num⟩ (300 * second))) :=
  ⟨by decide, addTTLJitter_spec ⟨7, by norm_num⟩ (300 * second) (by decide) (by decide)⟩

/-- The suffixed refresh key differs from the base key. -/
theorem refreshKey_ne (k : String) : refreshKey k ≠ k := by
  intro h
  have hl := congrArg String.length h
  simp [refreshKey, String.length_append] at hl
  exact absurd hl (by decide)

/-- Updating the flight for `k` leaves the record of every other key
unchanged. -/
theorem sfLookup_update_ne (s : SFState) (k k' : String) (ws : List Nat)
    (h : k ≠ k') : sfLookup (sfUpdate s k ws) k' = sfLookup s k' := by
  induction s with
  | nil => simp [sfUpdate, sfLookup]
  | cons p rest ih =>
      obtain ⟨k0, ws0⟩ := p
      by_cases h0 : k0 = k
      · subst h0
        simp [sfUpdate, sfLookup, h]
      · by_cases h1 : k0 = k'
        · subst h1
          simp [sfUpdate, sfLookup, h0]
        · simp [sfUpdate, sfLookup, h0, h1, ih]

/-- A caller entering the group for `k` leaves the flight record of
every other key unchanged. -/
theorem sfEnter_preserves_other (s : SFState) (k k' : String) (i : Nat)
    (h : k ≠ k') : sfLookup (sfEnter s k i).1 k' = sfLookup s k' := by
  unfold sfEnter
  cases hl : sfLookup s k with
  | none => simp [sfLookup, h]
  | some ws => simp [sfLookup_update_ne s k k' (i :: ws) h]

/-- Whether an entering caller starts the computation depends only on
its own key's in-flight record. -/
theorem sfEnter_leads (s : SFState) (k : String) (i : Nat) :
    (sfEnter s k i).2 = (sfLookup s k).isNone := by
  unfold sfEnter
  cases sfLookup s k <;> simp

/-- The trace of `n` concurrent `Do` calls for one key: every caller
enters while the flight is open, then the flight completes. -/
def coalesceTrace (K : String) (callers : List Nat) : List SFEv :=
  (callers.map (SFEv.enter K)) ++ [SFEv.complete K]

/-- Entering an already-open flight only accumulates waiters: no new
function invocation, no delivery. -/
theorem sfRun_enters {T : Type} (fnRes : String → T × Option Err) (K : String)
    (ids : List Nat) : ∀ (ws : List Nat) (fk : List String)
      (dv : List (Delivery T)),
    sfRun fnRes (ids.map (SFEv.enter K)) ⟨[(K, ws)], fk, dv⟩ =
      ⟨[(K, ids.reverse ++ ws)], fk, dv⟩ := by
  induction ids with
  | nil =>
      intro ws fk dv
      simp [sfRun]
  | cons i tl ih =>
      intro ws fk dv
      have hstep : sfStep fnRes ⟨[(K, ws)], fk, dv⟩ (SFEv.enter K i) =
          ⟨[(K, i :: ws)], fk, dv⟩ := by
        simp [sfStep, sfEnter, sfLookup, sfUpdate]
      simp only [sfRun, List.map_cons, List.foldl_cons]
      rw [show List.foldl (sfStep fnRes) (sfStep fnRes ⟨[(K, ws)], fk, dv⟩
          (SFEv.enter K i)) (tl.map (SFEv.enter K)) =
          sfRun fnRes (tl.map (SFEv.enter K)) (sfStep fnRes ⟨[(K, ws)], fk, dv⟩
          (SFEv.enter K i)) from rfl, hstep, ih (i :: ws) fk dv]
      simp

/-- A full coalescing round for one key from the idle group: the first
caller starts the (single) function invocation, later callers join as
waiters, and on completion every caller receives the invocation's
result. -/
theorem sfRun_coalesce_eq {T : Type} (fnRes : String → T × Option Err)
    (K : String) (j : Nat) (ids : List Nat) :
    sfRun fnRes (coalesceTrace K (j :: ids)) sfInit =
      ⟨[], [K], (ids.reverse ++ [j]).map fun i =>
        ⟨i, K, (fnRes K).1, (fnRes K).2⟩⟩ := by
  have h0 : sfStep fnRes (sfInit (T := T)) (SFEv.enter K j) =
      ⟨[(K, [j])], [K], []⟩ := by
    simp [sfStep, sfEnter, sfLookup, sfInit]
  have h1 := sfRun_enters fnRes K ids [j] [K] []
  have h2 : sfStep fnRes ⟨[(K, ids.reverse ++ [j])], [K], []⟩
      (SFEv.complete K) = ⟨[], [K], (ids.reverse ++ [j]).map fun i =>
        ⟨i, K, (fnRes K).1, (fnRes K).2⟩⟩ := by
    simp [sfStep, sfLookup, sfRemove]
  unfold sfRun at h1 ⊢
  rw [coalesceTrace, List.map_cons, List.cons_append, List.foldl_cons, h0,
    List.foldl_append, h1, List.foldl_cons, h2, List.foldl_nil]

/-- C1: for every key `K` and every `N ≥ 1` concurrent `FindAndCache`
calls with key `K` while the store has no entry for `K` (each probe
yields `redis.Nil`, so every caller routes into `sf.Do(K, ...)`), the
compute function is invoked exactly once (`fnKeys = [K]`), and every one
of the `N` callers (`j :: ids`) receives exactly the `(value, error)`
pair produced by that single invocation. -/
theorem findAndCache_single_compute {T A : Type} (zero : T)
    (down : A → Option T) (K : String) (sfDo : SFDoReturn A)
    (fnRes : String → T × Option Err) (j : Nat) (ids : List Nat) :
    (FindAndCache zero down K (GetResult.err Err.redisNil) sfDo).sfEntered =
        some K ∧
      (sfRun fnRes (coalesceTrace K (j :: ids)) sfInit).fnKeys = [K] ∧
      (∀ i ∈ j :: ids,
        ∃ d ∈ (sfRun fnRes (coalesceTrace K (j :: ids)) sfInit).delivered,
          d.caller = i ∧ d.value = (fnRes K).1 ∧ d.err = (fnRes K).2) ∧
      (∀ d ∈ (sfRun fnRes (coalesceTrace K (j :: ids)) sfInit).delivered,
        d.value = (fnRes K).1 ∧ d.err = (fnRes K).2) := by
  obtain ⟨v0, err0, sh0, ld0⟩ := sfDo
  refine ⟨?_, ?_, ?_, ?_⟩
  · cases err0 with
    | some e2 => simp [FindAndCache]
    | none =>
        cases hdv : down v0 with
        | none => simp [FindAndCache, hdv]
        | some v => simp [FindAndCache, hdv]
  · rw [sfRun_coalesce_eq]
  · intro i hi
    rw [sfRun_coalesce_eq]
    refine ⟨⟨i, K, (fnRes K).1, (fnRes K).2⟩, ?_, rfl, rfl, rfl⟩
    simp only [List.mem_map]
    refine ⟨i, ?_, rfl⟩
    rcases List.mem_cons.mp hi with h | h
    · subst h
      simp
    · simp [h]
  · intro d hd
    rw [sfRun_coalesce_eq] at hd
    simp only [List.mem_map] at hd
    obtain ⟨i, _, rfl⟩ := hd
    exact ⟨rfl, rfl⟩

/-- C1, witness: three concurrent callers `0, 1, 2` on key `"k"` with a
single invocation producing `(42, nil)`; caller `2` is delivered exactly
that pair. -/
theorem findAndCache_single_compute_witness :
    ∃ d ∈ (sfRun (fun _ => ((42 : Nat), (none : Option Err)))
        (coalesceTrace "k" [0, 1, 2]) sfInit).delivered,
      d.caller = 2 ∧ d.value = 42 ∧ d.err = none := by
  have h := findAndCache_single_compute (0 : Nat)
    (fun n : Nat => some n) "k" ⟨0, none, false, false⟩
    (fun _ => ((42 : Nat), (none : Option Err))) 0 [1, 2]
  exact h.2.2.1 2 (by simp)

/-- C9: the background refresh enters the group under the suffixed key
`K ++ ":refresh"`, which differs from `K`; a refresh entering the group
never touches the foreground flight record for `K` and vice versa, and
whether either one starts its own computation depends only on its own
key's in-flight record — so a refresh in flight for `K` never shares,
suppresses or is suppressed by a foreground miss-fill for `K`. -/
theorem refreshKey_distinct_flights (s : SFState) (k : String) (i i' : Nat) :
    refreshKey k ≠ k ∧
      sfLookup (sfEnter s (refreshKey k) i).1 k = sfLookup s k ∧
      sfLookup (sfEnter s k i').1 (refreshKey k) = sfLookup s (refreshKey k) ∧
      (sfEnter s (refreshKey k) i).2 = (sfLookup s (refreshKey k)).isNone ∧
      (sfEnter s k i').2 = (sfLookup s k).isNone :=
  ⟨refreshKey_ne k,
    sfEnter_preserves_other s (refreshKey k) k i (refreshKey_ne k),
    sfEnter_preserves_other s k (refreshKey k) i' (refreshKey_ne k).symm,
    sfEnter_leads s (refreshKey k) i,
    sfEnter_leads s k i'⟩

/-- C3: when the store probe succeeds, `FindAndCache` returns the cached
value with a nil error, does not invoke the compute function on the
foreground path (`fgFetched = false`, and it never enters the foreground
group), only schedules the detached refresh — and the caller's
`(value, err)` pair is `(cached, nil)` for every outcome of that
refresh (`runHitWithRefresh` may change the store but never the pair
already returned). -/
theorem findAndCache_hit_path {T A : Type} (zero : T) (down : A → Option T)
    (key : String) (cached : T) (sfDo : SFDoReturn A) (store : Store T)
    (refreshFetch : Except Err T) (refreshSetErr : Option Err) :
    (FindAndCache zero down key (GetResult.ok cached) sfDo).value = cached ∧
      (FindAndCache zero down key (GetResult.ok cached) sfDo).err = none ∧
      (FindAndCache zero down key (GetResult.ok cached) sfDo).fgFetched =
        false ∧
      (FindAndCache zero down key (GetResult.ok cached) sfDo).sfEntered =
        none ∧
      (FindAndCache zero down key (GetResult.ok cached) sfDo).refreshScheduled =
        true ∧
      (runHitWithRefresh zero down key cached sfDo store refreshFetch
        refreshSetErr).1 = (cached, none) :=
  ⟨rfl, rfl, rfl, rfl, rfl, rfl⟩

/-- C7: a probe error other than `redis.Nil` routes exactly as a
not-found miss — same returned pair, same foreground-fetch behavior,
same entry into the coalescing group under `key` — and the read error is
logged (`cacheGetError`) but never returned to the caller (the returned
pair coincides with the one of the `redis.Nil` miss, which never saw
`e`). -/
theorem findAndCache_soft_miss {T A : Type} (zero : T) (down : A → Option T)
    (key : String) (e : Err) (sfDo : SFDoReturn A)
    (h : isRedisNil e = false) :
    (FindAndCache zero down key (GetResult.err e) sfDo).value =
        (FindAndCache zero down key (GetResult.err Err.redisNil) sfDo).value ∧
      (FindAndCache zero down key (GetResult.err e) sfDo).err =
        (FindAndCache zero down key (GetResult.err Err.redisNil) sfDo).err ∧
      (FindAndCache zero down key (GetResult.err e) sfDo).fgFetched =
        (FindAndCache zero down key (GetResult.err Err.redisNil)
          sfDo).fgFetched ∧
      (FindAndCache zero down key (GetResult.err e) sfDo).refreshScheduled =
        (FindAndCache zero down key (GetResult.err Err.redisNil)
          sfDo).refreshScheduled ∧
      (FindAndCache zero down key (GetResult.err e) sfDo).sfEntered =
        some key ∧
      LogEvent.cacheGetError key e ∈
        (FindAndCache zero down key (GetResult.err e) sfDo).logs := by
  obtain ⟨v0, err0, sh0, ld0⟩ := sfDo
  cases err0 with
  | some e2 => simp [FindAndCache, h]
  | none =>
      cases hdv : down v0 with
      | none => simp [FindAndCache, h, hdv]
      | some v => simp [FindAndCache, h, hdv]

/-- C7, witness: a transport error on the probe at a concrete call. -/
theorem findAndCache_soft_miss_witness :
    isRedisNil (Err.transport 0) = false ∧
      (FindAndCache (0 : Nat) (fun n : Nat => some n) "k"
          (GetResult.err (Err.transport 0)) ⟨7, none, false, true⟩).sfEntered =
        some "k" ∧
      LogEvent.cacheGetError "k" (Err.transport 0) ∈
        (FindAndCache (0 : Nat) (fun n : Nat => some n) "k"
          (GetResult.err (Err.transport 0)) ⟨7, none, false, true⟩).logs := by
  have h := findAndCache_soft_miss (0 : Nat) (fun n : Nat => some n) "k"
    (Err.transport 0) ⟨7, none, false, true⟩ (by decide)
  exact ⟨by decide, h.2.2.2.2.1, h.2.2.2.2.2⟩

/-- C8: when the value published by the coalescing group does not assert
to the caller's expected type `T` (`down sfDo.v = none`), `FindAndCache`
returns the zero value of `T` together with the dedicated
`typeMismatch` error — a distinct error kind, different from every
compute, store or cancellation error — and never a coerced wrong-typed
value. -/
theorem findAndCache_type_mismatch {T A : Type} (zero : T)
    (down : A → Option T) (key : String) (e : Err) (sfDo : SFDoReturn A)
    (hok : sfDo.err = none) (hcast : down sfDo.v = none) :
    (FindAndCache zero down key (GetResult.err e) sfDo).value = zero ∧
      (FindAndCache zero down key (GetResult.err e) sfDo).err =
        some (Err.typeMismatch key) ∧
      (∀ n, Err.typeMismatch key ≠ Err.computeErr n) ∧
      (∀ n, Err.typeMismatch key ≠ Err.transport n) ∧
      Err.typeMismatch key ≠ Err.redisNil ∧
      Err.typeMismatch key ≠ Err.ctxCanceled := by
  obtain ⟨v0, err0, sh0, ld0⟩ := sfDo
  simp only at hok hcast
  subst hok
  refine ⟨?_, ?_, fun n => by simp, fun n => by simp, by simp, by simp⟩
  · simp [FindAndCache, hcast]
  · simp [FindAndCache, hcast]

/-- C8, witness: the group published a dynamic value that does not
assert to `Nat` (the assertion `id : Option Nat → Option Nat` yields
`none`); the caller gets `(0, typeMismatch "k")`. -/
theorem findAndCache_type_mismatch_witness :
    ((⟨none, none, true, false⟩ : SFDoReturn (Option Nat)).err = none ∧
        id (⟨none, none, true, false⟩ : SFDoReturn (Option Nat)).v = none) ∧
      (FindAndCache (0 : Nat) (id : Option Nat → Option Nat) "k"
          (GetResult.err Err.redisNil) ⟨none, none, true, false⟩).value = 0 ∧
      (FindAndCache (0 : Nat) (id : Option Nat → Option Nat) "k"
          (GetResult.err Err.redisNil) ⟨none, none, true, false⟩).err =
        some (Err.typeMismatch "k") := by
  have h := findAndCache_type_mismatch (0 : Nat)
    (id : Option Nat → Option Nat) "k" Err.redisNil
    ⟨none, none, true, false⟩ rfl rfl
  exact ⟨⟨rfl, rfl⟩, h.1, h.2.1⟩

/-- C10: whenever `FindAndCache` returns a non-nil error, the value it
returns alongside is exactly the zero value of `T` — never a partially
computed or stale cached value. -/
theorem findAndCache_error_returns_zero {T A : Type} (zero : T)
    (down : A → Option T) (key : String) (getRes : GetResult T)
    (sfDo : SFDoReturn A) (e : Err)
    (h : (FindAndCache zero down key getRes sfDo).err = some e) :
    (FindAndCache zero down key getRes sfDo).value = zero := by
  obtain ⟨v0, err0, sh0, ld0⟩ := sfDo
  cases getRes with
  | ok cached => simp [FindAndCache] at h
  | err ge =>
      cases err0 with
      | some e2 => simp [FindAndCache]
      | none =>
          cases hdv : down v0 with
          | none => simp [FindAndCache, hdv]
          | some v => simp [FindAndCache, hdv] at h

/-- C10, witness: a compute error surfaced by the group pairs with the
zero value at a concrete call. -/
theorem findAndCache_error_returns_zero_witness :
    (FindAndCache (0 : Nat) (fun n : Nat => some n) "k"
          (GetResult.err Err.redisNil)
          ⟨7, some (Err.computeErr 3), false, true⟩).err =
        some (Err.computeErr 3) ∧
      (FindAndCache (0 : Nat) (fun n : Nat => some n) "k"
          (GetResult.err Err.redisNil)
          ⟨7, some (Err.computeErr 3), false, true⟩).value = 0 :=
  ⟨by decide,
    findAndCache_error_returns_zero (0 : Nat) (fun n : Nat => some n) "k"
      (GetResult.err Err.redisNil) ⟨7, some (Err.computeErr 3), false, true⟩
      (Err.computeErr 3) (by decide)⟩

/-- C5: on the miss path a compute error `e` makes the fill return
`(zero, e)` with no store write scheduled (`setScheduled = false`), and
— through the coalescing group — every coalesced waiter of that flight
receives exactly that `(zero, e)` pair. -/
theorem missFill_error_propagates {T : Type} (zero : T) (key : String)
    (ctx : Ctx) (fn : Ctx → Except Err T) (setErr : Option Err) (e : Err)
    (hfn : fn ctx = Except.error e) (j : Nat) (ids : List Nat) :
    (fetchAndCacheInBackground zero key ctx fn setErr).1.value = zero ∧
      (fetchAndCacheInBackground zero key ctx fn setErr).1.err = some e ∧
      (fetchAndCacheInBackground zero key ctx fn setErr).1.setScheduled =
        false ∧
      (∀ d ∈ (sfRun (fun k =>
            ((fetchAndCacheInBackground zero k ctx fn setErr).1.value,
              (fetchAndCacheInBackground zero k ctx fn setErr).1.err))
          (coalesceTrace key (j :: ids)) sfInit).delivered,
        d.value = zero ∧ d.err = some e) := by
  refine ⟨?_, ?_, ?_, ?_⟩
  · simp [fetchAndCacheInBackground, hfn]
  · simp [fetchAndCacheInBackground, hfn]
  · simp [fetchAndCacheInBackground, hfn]
  · intro d hd
    rw [sfRun_coalesce_eq] at hd
    simp only [List.mem_map] at hd
    obtain ⟨i, _, rfl⟩ := hd
    simp [fetchAndCacheInBackground, hfn]

/-- C5, witness: compute error `computeErr 3` on key `"k"` with callers
`0, 1`; the fill returns `(0, computeErr 3)`, schedules no write, and
every delivery carries that pair. -/
theorem missFill_error_propagates_witness :
    (fun _ : Ctx => (Except.error (Err.computeErr 3) : Except Err Nat))
        Ctx.live = Except.error (Err.computeErr 3) ∧
      (fetchAndCacheInBackground (0 : Nat) "k" Ctx.live
          (fun _ => Except.error (Err.computeErr 3)) none).1.setScheduled =
        false := by
  have h := missFill_error_propagates (0 : Nat) "k" Ctx.live
    (fun _ => Except.error (Err.computeErr 3)) none (Err.computeErr 3) rfl
    0 [1]
  exact ⟨rfl, h.2.2.1⟩

/-- C6: on the miss path a successful compute returns `(v, nil)` to the
caller at once, with the store write-back scheduled asynchronously: the
returned `MissFill` is the same for every outcome `setErr` of the
detached `Set`, and a failing `Set` shows up only in the log stream. -/
theorem missFill_success_async_writeback {T : Type} (zero : T) (key : String)
    (ctx : Ctx) (fn : Ctx → Except Err T) (v : T)
    (hfn : fn ctx = Except.ok v) (setErr setErr' : Option Err) (e : Err) :
    (fetchAndCacheInBackground zero key ctx fn setErr).1.value = v ∧
      (fetchAndCacheInBackground zero key ctx fn setErr).1.err = none ∧
      (fetchAndCacheInBackground zero key ctx fn setErr).1.setScheduled =
        true ∧
      (fetchAndCacheInBackground zero key ctx fn setErr).1 =
        (fetchAndCacheInBackground zero key ctx fn setErr').1 ∧
      (fetchAndCacheInBackground zero key ctx fn (some e)).2 =
        [LogEvent.setFailedOnMiss key e] := by
  refine ⟨?_, ?_, ?_, ?_, ?_⟩ <;> simp [fetchAndCacheInBackground, hfn]

/-- C6, witness: compute returns `5`; the caller's fill is `(5, nil)`
whether the detached `Set` fails with a transport error or succeeds. -/
theorem missFill_success_async_writeback_witness :
    (fun _ : Ctx => (Except.ok 5 : Except Err Nat)) Ctx.live =
        Except.ok 5 ∧
      (fetchAndCacheInBackground (0 : Nat) "k" Ctx.live
          (fun _ => Except.ok 5) (some (Err.transport 1))).1 =
        (fetchAndCacheInBackground (0 : Nat) "k" Ctx.live
          (fun _ => Except.ok 5) none).1 := by
  have h := missFill_success_async_writeback (0 : Nat) "k" Ctx.live
    (fun _ => Except.ok 5) 5 rfl (some (Err.transport 1)) none
    (Err.transport 1)
  exact ⟨rfl, h.2.2.2.1⟩

/-- A compute function that honors its context's cancellation: it fails
with `context.Canceled` under a canceled context and produces `1`
otherwise. -/
def ctxProbeFn : Ctx → Except Err Nat
  | .canceled => Except.error Err.ctxCanceled
  | .live => Except.ok 1

/-- C4, counterexample.  The closure passed to `sf.Do` on the miss path
captures the triggering caller's context and runs the compute function
under it (dtos.go:159), so the computation IS canceled together with
that caller: with the context-honoring compute function `ctxProbeFn`,
the flight started by a canceled caller produces the cancellation error
and caches nothing, while the identical flight started by a live caller
produces `(1, nil)` — the in-flight computation's outcome is not
independent of the triggering caller's cancellation, refuting the claim
(and no mechanism lets the canceling caller stop waiting: `sf.Do` has no
context parameter, deliveries happen only when the flight completes). -/
theorem missFlight_canceled_counterexample :
    (missFlight (0 : Nat) "k" Ctx.canceled ctxProbeFn none).1 =
        ⟨0, some Err.ctxCanceled, false⟩ ∧
      (missFlight (0 : Nat) "k" Ctx.live ctxProbeFn none).1 =
        ⟨1, none, true⟩ ∧
      (missFlight (0 : Nat) "k" Ctx.canceled ctxProbeFn none).1 ≠
        (missFlight (0 : Nat) "k" Ctx.live ctxProbeFn none).1 := by
  decide

/-- C4, amended: the miss-path flight runs the compute function under
the triggering caller's context, so if that caller cancels, a
context-honoring compute function fails with the cancellation error; no
caller stops waiting — every caller coalesced on the key is delivered
the flight's own `(value, error)` pair when it completes (so the
cancellation error reaches them all); only the background refresh is
detached from caller contexts (its fetch runs under
`context.Background`). -/
theorem missFlight_cancellation_spec {T : Type} (zero : T) (key : String)
    (fn : Ctx → Except Err T) (setErr : Option Err) (e : Err)
    (hfn : fn Ctx.canceled = Except.error e) (j : Nat) (ids : List Nat) :
    (missFlight zero key Ctx.canceled fn setErr).1.err = some e ∧
      (missFlight zero key Ctx.canceled fn setErr).1.value = zero ∧
      (∀ d ∈ (sfRun (fun k =>
            ((missFlight zero k Ctx.canceled fn setErr).1.value,
              (missFlight zero k Ctx.canceled fn setErr).1.err))
          (coalesceTrace key (j :: ids)) sfInit).delivered,
        d.err = some e) ∧
      (∀ callerCtx, refreshFetchCtx callerCtx = Ctx.live) := by
  refine ⟨?_, ?_, ?_, fun _ => rfl⟩
  · simp [missFlight, fetchAndCacheInBackground, hfn]
  · simp [missFlight, fetchAndCacheInBackground, hfn]
  · intro d hd
    rw [sfRun_coalesce_eq] at hd
    simp only [List.mem_map] at hd
    obtain ⟨i, _, rfl⟩ := hd
    simp [missFlight, fetchAndCacheInBackground, hfn]

/-- C4, witness for the amended theorem: a canceled caller with the
context-honoring `ctxProbeFn` on key `"k"`, coalesced with caller `1`. -/
theorem missFlight_cancellation_spec_witness :
    ctxProbeFn Ctx.canceled = Except.error Err.ctxCanceled ∧
      (missFlight (0 : Nat) "k" Ctx.canceled ctxProbeFn none).1.err =
        some Err.ctxCanceled := by
  have h := missFlight_cancellation_spec (0 : Nat) "k" ctxProbeFn none
    Err.ctxCanceled rfl 0 [1]
  exact ⟨rfl, h.1⟩

end QaServer
